import Mathlib

/-!
Verification of the gopro-transfer repository: a shallow embedding of the
filename classifier (`media_info.parse_gopro_filename`), the latest-day
selection and transfer loop (`transfer/operations.transfer_files`), the
telemetry extractor (`telemetry.extract_telemetry`), and the telemetry
exporter (`telemetry.save_telemetry` and `TelemetryData.to_json`),
together with theorems settling the spec claims about them.
-/

namespace GoProTransfer

/-! ## Filename classifier (`media_info.parse_gopro_filename`) -/

/-- Result of `parse_gopro_filename`: a Python dict with optional keys
`file_type`, `chapter`, `file_number`.  The empty dict is all-`none`. -/
structure GoProFileInfo where
  file_type : Option String
  chapter : Option Nat
  file_number : Option String
deriving DecidableEq, Repr

/-- The empty classification (Python `{}`). -/
def GoProFileInfo.empty : GoProFileInfo := ⟨none, none, none⟩

/-- Numeric value of a decimal digit character (Python `int` on one char). -/
def charVal (c : Char) : Nat := c.toNat - 48

/-- Character class `[A-Z0-9]` of the newer-format regex. -/
def isUpperAlnum (c : Char) : Bool :=
  (65 ≤ c.toNat && c.toNat ≤ 90) || c.isDigit

/-- The newer-format branch `re.match(r"G([A-Z0-9])(\d{6})\.", filename)`
followed by its dict construction: discriminator in `[A-Z0-9]`,
six digits, then a literal dot; a digit discriminator means chapter,
a letter means main; `file_number` is the 6-digit string verbatim. -/
def parse_newer : List Char → Option GoProFileInfo
  | 'G' :: c :: d1 :: d2 :: d3 :: d4 :: d5 :: d6 :: '.' :: _ =>
    if isUpperAlnum c && [d1, d2, d3, d4, d5, d6].all Char.isDigit then
      some (if c.isDigit then
              { file_type := some "chapter", chapter := some (charVal c),
                file_number := some (String.mk [d1, d2, d3, d4, d5, d6]) }
            else
              { file_type := some "main", chapter := none,
                file_number := some (String.mk [d1, d2, d3, d4, d5, d6]) })
    else none
  | _ => none

/-- The older-format branch `re.match(r"(GOPR|GP(\d{2}))(\d{4})\.", filename)`
followed by its dict construction.  The two alternatives are
disjoint on the second character (`O` vs `P`). -/
def parse_older : List Char → Option GoProFileInfo
  | 'G' :: 'O' :: 'P' :: 'R' :: n1 :: n2 :: n3 :: n4 :: '.' :: _ =>
    if [n1, n2, n3, n4].all Char.isDigit then
      some { file_type := some "main", chapter := none,
             file_number := some (String.mk [n1, n2, n3, n4]) }
    else none
  | 'G' :: 'P' :: c1 :: c2 :: n1 :: n2 :: n3 :: n4 :: '.' :: _ =>
    if [c1, c2, n1, n2, n3, n4].all Char.isDigit then
      some { file_type := some "chapter",
             chapter := some (10 * charVal c1 + charVal c2),
             file_number := some (String.mk [n1, n2, n3, n4]) }
    else none
  | _ => none

/-- The function `parse_gopro_filename`: try the newer pattern first, then the older one,
otherwise return the empty dict. -/
def parse_gopro_filename (filename : String) : GoProFileInfo :=
  match parse_newer filename.toList with
  | some info => info
  | none =>
    match parse_older filename.toList with
    | some info => info
    | none => GoProFileInfo.empty

/-! ## Character class lemmas -/

theorem isDigit_false_of_upper {c : Char} (h : 65 ≤ c.toNat) : c.isDigit = false := by
  simp only [Char.isDigit, Bool.and_eq_false_iff, decide_eq_false_iff_not]
  right
  intro hle
  exact absurd (show c.toNat ≤ 57 from hle) (by omega)

theorem isUpperAlnum_of_upper {c : Char} (h1 : 65 ≤ c.toNat) (h2 : c.toNat ≤ 90) :
    isUpperAlnum c = true := by
  simp [isUpperAlnum, h1, h2]

theorem isUpperAlnum_of_digit {c : Char} (h : c.isDigit = true) : isUpperAlnum c = true := by
  simp [isUpperAlnum, h]

/-- C5: every newer-convention filename `G<uppercase letter><6 digits>.<ext>`
classifies as kind "main", and `G<digit><6 digits>.<ext>` as kind "chapter"
with that digit as chapter index; in both cases the sequence number is the
6-digit string verbatim. -/
theorem newer_convention_classification
    (c d1 d2 d3 d4 d5 d6 : Char) (rest : List Char)
    (hd : ([d1, d2, d3, d4, d5, d6].all Char.isDigit) = true) :
    (65 ≤ c.toNat → c.toNat ≤ 90 →
      parse_gopro_filename
          (String.mk ('G' :: c :: d1 :: d2 :: d3 :: d4 :: d5 :: d6 :: '.' :: rest)) =
        { file_type := some "main", chapter := none,
          file_number := some (String.mk [d1, d2, d3, d4, d5, d6]) })
    ∧ (c.isDigit = true →
      parse_gopro_filename
          (String.mk ('G' :: c :: d1 :: d2 :: d3 :: d4 :: d5 :: d6 :: '.' :: rest)) =
        { file_type := some "chapter", chapter := some (charVal c),
          file_number := some (String.mk [d1, d2, d3, d4, d5, d6]) }) := by
  constructor
  · intro h1 h2
    simp [parse_gopro_filename, parse_newer, String.toList,
      isUpperAlnum_of_upper h1 h2, hd, isDigit_false_of_upper h1]
  · intro hdig
    simp [parse_gopro_filename, parse_newer, String.toList,
      isUpperAlnum_of_digit hdig, hd, hdig]

/-- Witness for C5 at the concrete filenames `GX123456.MP4` and `G7123456.MP4`. -/
theorem newer_convention_classification_witness :
    ([('1' : Char), '2', '3', '4', '5', '6'].all Char.isDigit) = true ∧
    parse_gopro_filename "GX123456.MP4" =
      { file_type := some "main", chapter := none, file_number := some "123456" } ∧
    parse_gopro_filename "G7123456.MP4" =
      { file_type := some "chapter", chapter := some 7, file_number := some "123456" } :=
  ⟨by decide,
   (newer_convention_classification 'X' '1' '2' '3' '4' '5' '6' ['M', 'P', '4']
      (by decide)).1 (by decide) (by decide),
   (newer_convention_classification '7' '1' '2' '3' '4' '5' '6' ['M', 'P', '4']
      (by decide)).2 (by decide)⟩

/-- C1 (code bug): the older-convention chapter filename `GP011234.MP4` is
documented in `parse_gopro_filename`'s own docstring as "chapter 1 of file
1234", but the newer-format pattern `G[A-Z0-9]\d{6}\.` matches it first
(`P` is in `[A-Z0-9]` and `011234` is six digits), so the function returns
kind "main" with sequence number "011234"; the older `GOPR####` main branch,
by contrast, behaves as documented. -/
theorem older_chapter_filename_misclassified :
    parse_gopro_filename "GP011234.MP4" =
      { file_type := some "main", chapter := none, file_number := some "011234" } ∧
    parse_gopro_filename "GOPR1234.MP4" =
      { file_type := some "main", chapter := none, file_number := some "1234" } := by
  constructor <;> decide

/-! ## Timestamps, metadata, and latest-day selection
(`transfer/operations.get_file_date` and the selection block of
`transfer_files`) -/

/-- A timestamp, split into its calendar date (`file_date.date()`, encoded
as a day ordinal) and the remaining time-of-day. -/
structure DateTime where
  day : Int
  timeOfDay : Nat
deriving DecidableEq, Repr

/-- The slice of `get_media_metadata`'s result dict read by the transfer
logic: byte size, optional creation date (`st_birthtime` is absent on
platforms without birth time), optional modification date. -/
structure MediaMeta where
  size : Nat
  creation_date : Option DateTime
  modification_date : Option DateTime
deriving DecidableEq, Repr

/-- The function `get_file_date`: prefer the creation date, fall back to the
modification date, and as a last resort use the current time. -/
def get_file_date (m : MediaMeta) (now : DateTime) : DateTime :=
  match m.creation_date with
  | some d => d
  | none =>
    match m.modification_date with
    | some d => d
    | none => now

/-- A filesystem path, as a list of components. -/
abbrev FsPath := List String

/-- A candidate media file: source path, filename component
(`file_path.name`), and stat metadata. -/
structure MediaFile where
  path : FsPath
  name : String
  meta : MediaMeta
deriving DecidableEq, Repr

/-- The bucketing key `get_file_date(file_path).date()`. -/
def dateKey (now : DateTime) (f : MediaFile) : Int :=
  (get_file_date f.meta now).day

/-- Python dict update `files_by_date[date_key].append(file_path)` (creating
the key on first use): append to the existing bucket, else add a new bucket
at the end, preserving insertion order. -/
def addToBucket (b : List (Int × List MediaFile)) (k : Int) (f : MediaFile) :
    List (Int × List MediaFile) :=
  match b with
  | [] => [(k, [f])]
  | (k', l) :: rest =>
    if k' = k then (k', l ++ [f]) :: rest else (k', l) :: addToBucket rest k f

/-- Dict lookup `files_by_date[q]` (empty when the key is absent). -/
def lookupBucket (b : List (Int × List MediaFile)) (q : Int) : List MediaFile :=
  match b with
  | [] => []
  | (k, l) :: rest => if k = q then l else lookupBucket rest q

/-- The `files_by_date` dict built by the latest-day block of
`transfer_files`. -/
def files_by_date (now : DateTime) (files : List MediaFile) :
    List (Int × List MediaFile) :=
  files.foldl (fun b f => addToBucket b (dateKey now f) f) []

/-- Python `max` over a nonempty collection of keys. -/
def maxKey : List Int → Option Int
  | [] => none
  | k :: rest => some (rest.foldl max k)

/-- The latest-day narrowing of `transfer_files` (taken when `all_dates` is
off): `latest_date = max(files_by_date.keys())`, then the candidate list
becomes `files_by_date[latest_date]`. -/
def select_latest_day (now : DateTime) (files : List MediaFile) :
    List MediaFile :=
  let b := files_by_date now files
  match maxKey (b.map Prod.fst) with
  | some m => lookupBucket b m
  | none => []

/-! ## Transfer loop (`transfer_files`, per-file section) -/

/-- The inputs of one `transfer_files` invocation that the per-file loop
reads: destination root, the `strftime(date_fmt)` folder-name function, the
current time, the move-vs-copy flag, and the success/failure outcome of the
`shutil.move`/`shutil.copy2` call for each file. -/
structure TransferCtx where
  dest : FsPath
  fmt : DateTime → String
  now : DateTime
  move : Bool
  env : MediaFile → Bool

/-- Destination path `destination_path / date_folder / file_path.name` with
`date_folder = file_date.strftime(date_fmt)`. -/
def destFile (c : TransferCtx) (f : MediaFile) : FsPath :=
  c.dest ++ [c.fmt (get_file_date f.meta c.now), f.name]

/-- Destination-side filesystem (path to byte size of the file stored
there) plus the accumulators of `transfer_files`: `transferred_files` and
`total_size`. -/
structure TransferState where
  fs : FsPath → Option Nat
  records : List (FsPath × FsPath)
  total_size : Nat

/-- One iteration of the transfer loop: skip silently when the destination
already exists; otherwise attempt the copy or move, which either succeeds
(the destination receives the file, a move also removes the source, the
pair is recorded and the size added) or raises and is caught, leaving
everything unchanged. -/
def transferOne (c : TransferCtx) (st : TransferState) (f : MediaFile) :
    TransferState :=
  let d := destFile c f
  if (st.fs d).isSome then st
  else if c.env f then
    { fs := fun p =>
        if p = d then some f.meta.size
        else if c.move && p = f.path then none
        else st.fs p,
      records := st.records ++ [(f.path, d)],
      total_size := st.total_size + f.meta.size }
  else st

/-- The per-file loop of `transfer_files` over the candidate list. -/
def transferLoop (c : TransferCtx) (st : TransferState)
    (files : List MediaFile) : TransferState :=
  files.foldl (transferOne c) st

/-- The value `transfer_files` returns: the `transferred_files` list alone
(`return transferred_files`). -/
def transfer_files_return (c : TransferCtx) (st : TransferState)
    (files : List MediaFile) : List (FsPath × FsPath) :=
  (transferLoop c st files).records

/-! ## Lemmas about date bucketing -/

theorem lookupBucket_addToBucket (b : List (Int × List MediaFile)) (k q : Int)
    (f : MediaFile) :
    lookupBucket (addToBucket b k f) q =
      lookupBucket b q ++ (if k = q then [f] else []) := by
  induction b with
  | nil => simp [addToBucket, lookupBucket]
  | cons hd tl ih =>
    obtain ⟨k', l⟩ := hd
    by_cases h1 : k' = k
    · have e1 : addToBucket ((k', l) :: tl) k f = (k', l ++ [f]) :: tl := by
        simp [addToBucket, h1]
      rw [e1]
      by_cases h2 : k' = q
      · have hkq : k = q := by omega
        simp [lookupBucket, h2, hkq]
      · have hkq : ¬k = q := by omega
        simp [lookupBucket, h2, hkq]
    · have e1 : addToBucket ((k', l) :: tl) k f = (k', l) :: addToBucket tl k f := by
        simp [addToBucket, h1]
      rw [e1]
      by_cases h2 : k' = q
      · have hkq : ¬k = q := by omega
        simp [lookupBucket, h2, hkq]
      · simp [lookupBucket, h2, ih]

theorem lookupBucket_files_by_date_aux (now : DateTime) (files : List MediaFile)
    (b : List (Int × List MediaFile)) (q : Int) :
    lookupBucket (files.foldl (fun b f => addToBucket b (dateKey now f) f) b) q =
      lookupBucket b q ++ files.filter (fun f => dateKey now f = q) := by
  induction files generalizing b with
  | nil => simp
  | cons x rest ih =>
    simp only [List.foldl_cons]
    rw [ih, lookupBucket_addToBucket]
    by_cases h : dateKey now x = q <;> simp [h, List.filter_cons]

theorem mem_keys_addToBucket (b : List (Int × List MediaFile)) (k q : Int)
    (f : MediaFile) :
    q ∈ (addToBucket b k f).map Prod.fst ↔ q ∈ b.map Prod.fst ∨ q = k := by
  induction b with
  | nil => simp [addToBucket]
  | cons hd tl ih =>
    obtain ⟨k', l⟩ := hd
    simp only [addToBucket]
    split_ifs with h1
    · subst h1
      simp only [List.map_cons, List.mem_cons]
      tauto
    · simp only [List.map_cons, List.mem_cons, ih]
      tauto

theorem mem_keys_files_by_date_aux (now : DateTime) (files : List MediaFile)
    (b : List (Int × List MediaFile)) (q : Int) :
    q ∈ ((files.foldl (fun b f => addToBucket b (dateKey now f) f) b).map Prod.fst) ↔
      q ∈ b.map Prod.fst ∨ q ∈ files.map (dateKey now) := by
  induction files generalizing b with
  | nil => simp
  | cons x rest ih =>
    simp only [List.foldl_cons, List.map_cons, List.mem_cons]
    rw [ih, mem_keys_addToBucket]
    tauto

/-! ## Lemmas about `maxKey` (Python `max`) -/

theorem foldl_max_spec (l : List Int) (a : Int) :
    (l.foldl max a ∈ a :: l) ∧ ∀ x ∈ a :: l, x ≤ l.foldl max a := by
  induction l generalizing a with
  | nil => simp
  | cons y rest ih =>
    obtain ⟨ihm, ihb⟩ := ih (max a y)
    constructor
    · simp only [List.foldl_cons]
      rcases List.mem_cons.mp ihm with h | h
      · rcases max_choice a y with hc | hc <;> rw [h, hc] <;> simp
      · exact List.mem_cons_of_mem _ (List.mem_cons_of_mem _ h)
    · intro x hx
      simp only [List.foldl_cons]
      rcases List.mem_cons.mp hx with rfl | hx1
      · exact le_trans (le_max_left x y) (ihb _ (List.mem_cons_self _ _))
      · rcases List.mem_cons.mp hx1 with rfl | hx2
        · exact le_trans (le_max_right a x) (ihb _ (List.mem_cons_self _ _))
        · exact ihb _ (List.mem_cons_of_mem _ hx2)

theorem maxKey_eq_some_iff {l : List Int} {m : Int} :
    maxKey l = some m ↔ m ∈ l ∧ ∀ x ∈ l, x ≤ m := by
  cases l with
  | nil => simp [maxKey]
  | cons k rest =>
    obtain ⟨hm, hb⟩ := foldl_max_spec rest k
    constructor
    · intro h
      simp only [maxKey, Option.some_inj] at h
      subst h
      exact ⟨hm, hb⟩
    · rintro ⟨hmem, hbound⟩
      simp only [maxKey, Option.some_inj]
      exact le_antisymm (hbound _ hm) (hb m hmem)

theorem maxKey_congr {l l' : List Int} (h : ∀ x, x ∈ l ↔ x ∈ l') :
    maxKey l = maxKey l' := by
  cases hl : maxKey l with
  | some m =>
    obtain ⟨hm, hb⟩ := maxKey_eq_some_iff.mp hl
    exact (maxKey_eq_some_iff.mpr ⟨(h m).mp hm, fun x hx => hb x ((h x).mpr hx)⟩).symm
  | none =>
    cases l with
    | nil =>
      cases l' with
      | nil => rfl
      | cons y t => exact absurd ((h y).mpr (List.mem_cons_self _ _)) (by simp)
    | cons y t => simp [maxKey] at hl

theorem select_latest_day_eq_filter (now : DateTime) (files : List MediaFile)
    (m : Int) (hm : maxKey (files.map (dateKey now)) = some m) :
    select_latest_day now files = files.filter (fun f => dateKey now f = m) := by
  have hkeys : ∀ q : Int,
      q ∈ (files_by_date now files).map Prod.fst ↔ q ∈ files.map (dateKey now) := by
    intro q
    rw [files_by_date, mem_keys_files_by_date_aux]
    simp
  have hmax : maxKey ((files_by_date now files).map Prod.fst) = some m := by
    rw [maxKey_congr hkeys]
    exact hm
  rw [select_latest_day]
  simp only [hmax]
  rw [files_by_date, lookupBucket_files_by_date_aux]
  simp [lookupBucket]

theorem map_path_filter (now : DateTime) (m : Int) :
    ∀ (l l' : List MediaFile),
      l.map (fun f => (f.path, dateKey now f)) =
        l'.map (fun f => (f.path, dateKey now f)) →
      (l.filter (fun f => dateKey now f = m)).map (fun f => f.path) =
        (l'.filter (fun f => dateKey now f = m)).map (fun f => f.path)
  | [], [], _ => rfl
  | [], y :: t, h => by simp at h
  | x :: s, [], h => by simp at h
  | x :: s, y :: t, h => by
    simp only [List.map_cons, List.cons.injEq, Prod.mk.injEq] at h
    obtain ⟨⟨hp, hdk⟩, htl⟩ := h
    simp only [List.filter_cons]
    by_cases hx : dateKey now x = m
    · have hy : dateKey now y = m := by rw [← hdk]; exact hx
      simp [hx, hy, hp, map_path_filter now m s t htl]
    · have hy : ¬dateKey now y = m := by rw [← hdk]; exact hx
      simp [hx, hy, map_path_filter now m s t htl]

/-- C2: when "all dates" mode is off and the candidates are non-empty (so
`max` over the date buckets is defined and yields `m`), the latest-day
narrowing returns exactly the candidates whose best-timestamp calendar date
equals `m`, in order; and the set of selected files (by path) depends only
on each candidate's identity and calendar date, not on time-of-day. -/
theorem latest_day_selection (now : DateTime) (files : List MediaFile) (m : Int)
    (hm : maxKey (files.map (dateKey now)) = some m) :
    select_latest_day now files = files.filter (fun f => dateKey now f = m)
    ∧ ∀ files' : List MediaFile,
        files'.map (fun f => (f.path, dateKey now f)) =
          files.map (fun f => (f.path, dateKey now f)) →
        (select_latest_day now files').map (fun f => f.path) =
          (select_latest_day now files).map (fun f => f.path) := by
  refine ⟨select_latest_day_eq_filter now files m hm, ?_⟩
  intro files' hproj
  have hdates : files'.map (dateKey now) = files.map (dateKey now) := by
    have h2 := congrArg (List.map Prod.snd) hproj
    simpa [List.map_map, Function.comp] using h2
  have hm' : maxKey (files'.map (dateKey now)) = some m := by rw [hdates]; exact hm
  rw [select_latest_day_eq_filter now files m hm,
    select_latest_day_eq_filter now files' m hm']
  exact map_path_filter now m files' files hproj

/-- Concrete candidate file captured on day 10 (used in witnesses). -/
def fileDay10 : MediaFile :=
  { path := ["src", "A.MP4"], name := "A.MP4",
    meta := { size := 1, creation_date := some ⟨10, 5⟩, modification_date := none } }

/-- Concrete candidate file captured on day 20 (used in witnesses). -/
def fileDay20 : MediaFile :=
  { path := ["src", "B.MP4"], name := "B.MP4",
    meta := { size := 2, creation_date := some ⟨20, 7⟩, modification_date := none } }

/-- Variant of `fileDay10` with a different time-of-day (used in witnesses). -/
def fileDay10' : MediaFile :=
  { path := ["src", "A.MP4"], name := "A.MP4",
    meta := { size := 1, creation_date := some ⟨10, 99⟩, modification_date := none } }

/-- Variant of `fileDay20` with a different time-of-day (used in witnesses). -/
def fileDay20' : MediaFile :=
  { path := ["src", "B.MP4"], name := "B.MP4",
    meta := { size := 2, creation_date := some ⟨20, 42⟩, modification_date := none } }

/-- Witness for C2: two files on days 10 and 20; only the day-20 file is
selected, and perturbing times-of-day does not change the selected paths. -/
theorem latest_day_selection_witness :
    maxKey ([fileDay10, fileDay20].map (dateKey ⟨0, 0⟩)) = some 20 ∧
    select_latest_day ⟨0, 0⟩ [fileDay10, fileDay20] =
      [fileDay10, fileDay20].filter (fun f => dateKey ⟨0, 0⟩ f = 20) ∧
    (select_latest_day ⟨0, 0⟩ [fileDay10', fileDay20']).map (fun f => f.path) =
      (select_latest_day ⟨0, 0⟩ [fileDay10, fileDay20]).map (fun f => f.path) :=
  ⟨by decide,
   (latest_day_selection ⟨0, 0⟩ [fileDay10, fileDay20] 20 (by decide)).1,
   (latest_day_selection ⟨0, 0⟩ [fileDay10, fileDay20] 20 (by decide)).2
     [fileDay10', fileDay20'] (by decide)⟩

/-! ## Lemmas about the transfer loop -/

theorem transferOne_skip (c : TransferCtx) (st : TransferState) (f : MediaFile)
    (h : (st.fs (destFile c f)).isSome) : transferOne c st f = st := by
  rw [transferOne]
  simp [h]

theorem transferOne_fail (c : TransferCtx) (st : TransferState) (f : MediaFile)
    (h : c.env f = false) : transferOne c st f = st := by
  rw [transferOne]
  by_cases h1 : (st.fs (destFile c f)).isSome
  · simp [h1]
  · simp [h1, h]

theorem transferOne_succ (c : TransferCtx) (st : TransferState) (f : MediaFile)
    (h1 : ¬(st.fs (destFile c f)).isSome = true) (h2 : c.env f = true) :
    (transferOne c st f).records = st.records ++ [(f.path, destFile c f)]
    ∧ (transferOne c st f).total_size = st.total_size + f.meta.size := by
  rw [transferOne]
  simp [h1, h2]

theorem transferOne_fs_preserved (c : TransferCtx) (st : TransferState)
    (f : MediaFile) (p : FsPath) (v : Nat) (hp : p ≠ f.path)
    (hv : st.fs p = some v) : (transferOne c st f).fs p = some v := by
  rw [transferOne]
  by_cases h1 : (st.fs (destFile c f)).isSome
  · simp [h1, hv]
  · by_cases h2 : c.env f
    · simp only [h1, if_false, h2, if_true]
      by_cases h3 : p = destFile c f
      · rw [h3] at hv
        rw [hv] at h1
        simp at h1
      · simp [h3, hp, hv]
    · simp [h1, h2, hv]

theorem transferOne_dest_isSome (c : TransferCtx) (st : TransferState)
    (f : MediaFile) (henv : c.env f = true) :
    ((transferOne c st f).fs (destFile c f)).isSome := by
  rw [transferOne]
  by_cases h1 : (st.fs (destFile c f)).isSome
  · simp [h1]
  · simp [h1, henv]

theorem transferLoop_fs_preserved (c : TransferCtx) :
    ∀ (files : List MediaFile) (st : TransferState) (p : FsPath) (v : Nat),
      (∀ g ∈ files, p ≠ g.path) → st.fs p = some v →
      (transferLoop c st files).fs p = some v
  | [], _, _, _, _, hv => hv
  | x :: rest, st, p, v, hp, hv => by
    rw [transferLoop, List.foldl_cons]
    exact transferLoop_fs_preserved c rest (transferOne c st x) p v
      (fun g hg => hp g (List.mem_cons_of_mem _ hg))
      (transferOne_fs_preserved c st x p v (hp x (List.mem_cons_self _ _)) hv)

theorem transferLoop_fs_isSome_preserved (c : TransferCtx) (files : List MediaFile)
    (st : TransferState) (p : FsPath) (hp : ∀ g ∈ files, p ≠ g.path)
    (h : (st.fs p).isSome) : ((transferLoop c st files).fs p).isSome := by
  obtain ⟨v, hv⟩ := Option.isSome_iff_exists.mp h
  rw [transferLoop_fs_preserved c files st p v hp hv]
  rfl

theorem transferLoop_dests_exist (c : TransferCtx) :
    ∀ (files : List MediaFile) (st : TransferState),
      (∀ f ∈ files, c.env f = true) →
      (∀ f ∈ files, ∀ g ∈ files, destFile c g ≠ f.path) →
      ∀ f ∈ files, ((transferLoop c st files).fs (destFile c f)).isSome
  | [], _, _, _, f, hf => absurd hf (List.not_mem_nil f)
  | x :: rest, st, henv, hdisj, f, hf => by
    rw [transferLoop, List.foldl_cons]
    rcases List.mem_cons.mp hf with rfl | hfr
    · apply transferLoop_fs_isSome_preserved
      · intro g hg
        exact hdisj g (List.mem_cons_of_mem _ hg) f (List.mem_cons_self _ _)
      · exact transferOne_dest_isSome c st f (henv f (List.mem_cons_self _ _))
    · exact transferLoop_dests_exist c rest (transferOne c st x)
        (fun g hg => henv g (List.mem_cons_of_mem _ hg))
        (fun g hg g' hg' =>
          hdisj g (List.mem_cons_of_mem _ hg) g' (List.mem_cons_of_mem _ hg'))
        f hfr

theorem transferLoop_all_skipped (c : TransferCtx) :
    ∀ (files : List MediaFile) (st : TransferState),
      (∀ f ∈ files, (st.fs (destFile c f)).isSome) → transferLoop c st files = st
  | [], _, _ => rfl
  | x :: rest, st, h => by
    rw [transferLoop, List.foldl_cons, transferOne_skip c st x (h x (List.mem_cons_self _ _))]
    exact transferLoop_all_skipped c rest st (fun f hf => h f (List.mem_cons_of_mem _ hf))

/-- C3: idempotence at the file-path level.  After a first run in which
every attempted copy/move succeeded (and no source path coincides with a
computed destination path), a second invocation of the loop over the same
candidate list — starting, as `transfer_files` does, from fresh empty
accumulators but the resulting filesystem — skips every file via the
destination-existence check, so it changes nothing and returns zero
TransferRecords; no error is raised (the loop is total). -/
theorem transfer_idempotent (c : TransferCtx) (st : TransferState)
    (files : List MediaFile)
    (henv : ∀ f ∈ files, c.env f = true)
    (hdisj : ∀ f ∈ files, ∀ g ∈ files, destFile c g ≠ f.path) :
    transferLoop c
        { fs := (transferLoop c st files).fs, records := [], total_size := 0 } files =
      { fs := (transferLoop c st files).fs, records := [], total_size := 0 }
    ∧ transfer_files_return c
        { fs := (transferLoop c st files).fs, records := [], total_size := 0 } files = [] := by
  have hall := transferLoop_dests_exist c files st henv hdisj
  have h1 : transferLoop c
      { fs := (transferLoop c st files).fs, records := [], total_size := 0 } files =
      { fs := (transferLoop c st files).fs, records := [], total_size := 0 } :=
    transferLoop_all_skipped c files _ hall
  exact ⟨h1, by rw [transfer_files_return, h1]⟩

/-- Concrete transfer context used in witnesses: copy mode, every
copy succeeds, fixed date-folder name. -/
def ctxW : TransferCtx :=
  { dest := ["dst"], fmt := fun _ => "2024-01-06", now := ⟨0, 0⟩,
    move := false, env := fun _ => true }

/-- Concrete initial state used in witnesses: empty destination. -/
def emptyFs : TransferState :=
  { fs := fun _ => none, records := [], total_size := 0 }

/-- Witness for C3 with one file into an empty destination. -/
theorem transfer_idempotent_witness :
    (∀ f ∈ [fileDay10], ctxW.env f = true) ∧
    (∀ f ∈ [fileDay10], ∀ g ∈ [fileDay10], destFile ctxW g ≠ f.path) ∧
    transfer_files_return ctxW
      { fs := (transferLoop ctxW emptyFs [fileDay10]).fs, records := [],
        total_size := 0 } [fileDay10] = [] :=
  ⟨by intro f _; rfl,
   by decide,
   (transfer_idempotent ctxW emptyFs [fileDay10] (by intro f _; rfl) (by decide)).2⟩

/-- C4: a candidate whose computed destination path already exists is
skipped: that iteration leaves the whole state unchanged (no TransferRecord,
no bytes added, and no error since the step is total); moreover an existing
destination file's content is never overwritten by the rest of the batch,
as long as the existing path is not the source path of a later move. -/
theorem existing_destination_skipped (c : TransferCtx) (st : TransferState)
    (f : MediaFile) (files : List MediaFile) (p : FsPath) (v : Nat) :
    ((st.fs (destFile c f)).isSome → transferOne c st f = st)
    ∧ (st.fs p = some v → (∀ g ∈ files, p ≠ g.path) →
        (transferLoop c st files).fs p = some v) :=
  ⟨transferOne_skip c st f,
   fun hv hp => transferLoop_fs_preserved c files st p v hp hv⟩

/-- Concrete state whose destination already holds `A.MP4` (7 bytes). -/
def stWithA : TransferState :=
  { fs := fun p => if p = ["dst", "2024-01-06", "A.MP4"] then some 7 else none,
    records := [], total_size := 0 }

/-- Witness for C4: `fileDay10`'s destination exists in `stWithA`, the step
is a no-op, and the existing file survives a later batch untouched. -/
theorem existing_destination_skipped_witness :
    (stWithA.fs (destFile ctxW fileDay10)).isSome = true ∧
    transferOne ctxW stWithA fileDay10 = stWithA ∧
    (transferLoop ctxW stWithA [fileDay20]).fs ["dst", "2024-01-06", "A.MP4"] = some 7 :=
  ⟨by decide,
   (existing_destination_skipped ctxW stWithA fileDay10 [fileDay20]
      ["dst", "2024-01-06", "A.MP4"] 7).1 (by decide),
   (existing_destination_skipped ctxW stWithA fileDay10 [fileDay20]
      ["dst", "2024-01-06", "A.MP4"] 7).2 (by decide) (by decide)⟩

/-- C8: a per-file transfer error is caught and isolated: if the copy/move
of `f` fails, the batch result over `xs ++ [f] ++ ys` equals the result
with `f` absent — every file of `ys` is still attempted and `f` contributes
no TransferRecord and no bytes; the loop returns normally. -/
theorem per_file_error_isolated (c : TransferCtx) (st : TransferState)
    (xs ys : List MediaFile) (f : MediaFile) (hf : c.env f = false) :
    transferLoop c st (xs ++ f :: ys) = transferLoop c st (xs ++ ys) := by
  rw [transferLoop, transferLoop, List.foldl_append, List.foldl_append,
    List.foldl_cons, transferOne_fail c _ f hf]

/-- Transfer context in which copying `A.MP4` fails and everything else
succeeds. -/
def ctxFailA : TransferCtx :=
  { dest := ["dst"], fmt := fun _ => "2024-01-06", now := ⟨0, 0⟩,
    move := false, env := fun g => g.name == "B.MP4" }

/-- Witness for C8: with `A.MP4` failing, the batch `[A, B]` behaves like
the batch `[B]`. -/
theorem per_file_error_isolated_witness :
    ctxFailA.env fileDay10 = false ∧
    transferLoop ctxFailA emptyFs ([] ++ fileDay10 :: [fileDay20]) =
      transferLoop ctxFailA emptyFs ([] ++ [fileDay20]) :=
  ⟨by decide,
   per_file_error_isolated ctxFailA emptyFs [] [fileDay20] fileDay10 (by decide)⟩

/-- C6 (amended): the loop produces an ordered list of TransferRecords for
the successfully transferred sublist `ts` of the candidates, and accumulates
the aggregate byte count of exactly those files into `total_size`; but the
value `transfer_files` returns is the record list alone — the byte count is
only logged, not returned. -/
theorem transfer_returns_records_list (c : TransferCtx) (files : List MediaFile) :
    ∀ st : TransferState,
      ∃ ts : List MediaFile, ts.Sublist files
        ∧ transfer_files_return c st files =
            st.records ++ ts.map (fun f => (f.path, destFile c f))
        ∧ (transferLoop c st files).total_size =
            st.total_size + (ts.map (fun f => f.meta.size)).sum := by
  induction files with
  | nil =>
    intro st
    exact ⟨[], List.Sublist.refl _,
      by simp [transfer_files_return, transferLoop],
      by simp [transferLoop]⟩
  | cons x rest ih =>
    intro st
    have hstep : transferLoop c st (x :: rest) =
        transferLoop c (transferOne c st x) rest := by
      rw [transferLoop, List.foldl_cons]
      rfl
    have hret : transfer_files_return c st (x :: rest) =
        transfer_files_return c (transferOne c st x) rest := by
      rw [transfer_files_return, transfer_files_return, hstep]
    obtain ⟨ts, hsub, hrec, htot⟩ := ih (transferOne c st x)
    by_cases h1 : (st.fs (destFile c x)).isSome
    · refine ⟨ts, hsub.cons _, ?_, ?_⟩
      · rw [hret, hrec, transferOne_skip c st x h1]
      · rw [hstep, htot, transferOne_skip c st x h1]
    · by_cases h2 : c.env x
      · obtain ⟨hr, ht⟩ := transferOne_succ c st x h1 h2
        refine ⟨x :: ts, hsub.cons₂ _, ?_, ?_⟩
        · rw [hret, hrec, hr]
          simp [List.append_assoc]
        · rw [hstep, htot, ht, List.map_cons, List.sum_cons, Nat.add_assoc]
      · have hf : c.env x = false := by simpa using h2
        refine ⟨ts, hsub.cons _, ?_, ?_⟩
        · rw [hret, hrec, transferOne_fail c st x hf]
        · rw [hstep, htot, transferOne_fail c st x hf]

/-- A copy of `fileDay10` whose only difference is its byte size. -/
def fileDay10big : MediaFile :=
  { path := ["src", "A.MP4"], name := "A.MP4",
    meta := { size := 200, creation_date := some ⟨10, 5⟩, modification_date := none } }

/-- C6 counterexample: two invocations that differ only in the transferred
file's byte size return identical values while accumulating different
aggregate byte counts, so the returned value of `transfer_files` cannot
contain the byte count — the function returns the record list alone
(`return transferred_files`), and `total_size` is merely logged. -/
theorem return_value_omits_byte_count :
    transfer_files_return ctxW emptyFs [fileDay10] =
      transfer_files_return ctxW emptyFs [fileDay10big]
    ∧ (transferLoop ctxW emptyFs [fileDay10]).total_size ≠
        (transferLoop ctxW emptyFs [fileDay10big]).total_size := by
  constructor <;> decide

/-! ## Telemetry extraction (`telemetry.extract_telemetry`) -/

/-- One data point yielded by the container parser's stream iterator:
`data_point["timestamp"]` and the numeric tuple `data_point["value"]`. -/
structure Sample where
  timestamp : Int
  value : List Int
deriving DecidableEq, Repr

/-- One stream as iterated by a `for data_point in stream` loop: the points
it yields in order, and whether the iteration (or the `get_stream` call
itself, with `yielded = []`) ends by raising. -/
structure StreamIter where
  yielded : List Sample
  raises : Bool

/-- The external `gpmf.Parser` after a successful parse: available stream
names and the stream obtained for each name. -/
structure Parser where
  streams : List String
  get_stream : String → StreamIter

/-- One GPS record (`GPS5` format `[latitude, longitude, altitude, speed,
speed3d]`). -/
structure GpsPoint where
  timestamp : Int
  latitude : Int
  longitude : Int
  altitude : Int
  speed : Int
  speed3d : Int
deriving DecidableEq, Repr

/-- One accelerometer/gyroscope record (`[x, y, z]`). -/
structure XyzPoint where
  timestamp : Int
  x : Int
  y : Int
  z : Int
deriving DecidableEq, Repr

/-- One temperature record (`[temperature]`). -/
structure TempPoint where
  timestamp : Int
  temperature : Int
deriving DecidableEq, Repr

/-- One pass-through record: timestamp plus the opaque value tuple. -/
structure OtherPoint where
  timestamp : Int
  value : List Int
deriving DecidableEq, Repr

/-- The class `TelemetryData`: the four well-known sequences plus the open
`other_data` dict. -/
structure TelemetryData where
  gps : List GpsPoint
  accl : List XyzPoint
  gyro : List XyzPoint
  temp : List TempPoint
  other_data : List (String × List OtherPoint)
deriving DecidableEq, Repr

/-- Building one GPS dict from a data point; indexing `value[0]..value[4]`
raises (`none`) when the tuple is shorter than 5. -/
def mkGps (s : Sample) : Option GpsPoint :=
  match s.value with
  | la :: lo :: al :: sp :: s3 :: _ => some ⟨s.timestamp, la, lo, al, sp, s3⟩
  | _ => none

/-- Building one accelerometer/gyroscope dict; raises when the tuple is
shorter than 3. -/
def mkXyz (s : Sample) : Option XyzPoint :=
  match s.value with
  | x :: y :: z :: _ => some ⟨s.timestamp, x, y, z⟩
  | _ => none

/-- Building one temperature dict; raises when the tuple is empty. -/
def mkTemp (s : Sample) : Option TempPoint :=
  match s.value with
  | t :: _ => some ⟨s.timestamp, t⟩
  | _ => none

/-- The extraction loop of a recognized stream: each successfully converted
point is appended to the output list; the first conversion failure raises,
is caught, and the loop stops — the points appended so far are kept. -/
def recLoop {β : Type} (mk : Sample → Option β) : List Sample → List β
  | [] => []
  | s :: rest =>
    match mk s with
    | some r => r :: recLoop mk rest
    | none => []

/-- Handling of one recognized stream in `extract_telemetry`: empty when the
stream is not offered; otherwise the converted prefix of the samples the
(possibly failing) iterator yields. -/
def extractRecognized {β : Type} (p : Parser) (name : String)
    (mk : Sample → Option β) : List β :=
  if name ∈ p.streams then recLoop mk (p.get_stream name).yielded else []

/-- Python dict assignment `d[k] = v`: replace the value in place, else
append a new entry. -/
def dictUpdate {α : Type} (d : List (String × α)) (k : String) (v : α) :
    List (String × α) :=
  match d with
  | [] => [(k, v)]
  | (k', v') :: rest =>
    if k' = k then (k', v) :: rest else (k', v') :: dictUpdate rest k v

/-- Python dict lookup `d[k]` (first entry wins). -/
def dictLookup {α : Type} (d : List (String × α)) (k : String) : Option α :=
  match d with
  | [] => none
  | (k', v) :: rest => if k' = k then some v else dictLookup rest k

/-- The pass-through loop of `extract_telemetry`: for each stream name not
among the four recognized identifiers, build the full `(timestamp, value)`
list; an iterator that raises discards the partial list (the dict
assignment only happens after the loop), and an empty list is not stored. -/
def extract_other (p : Parser) : List (String × List OtherPoint) :=
  p.streams.foldl
    (fun acc name =>
      if name = "GPS5" ∨ name = "ACCL" ∨ name = "GYRO" ∨ name = "TMPC" then acc
      else
        let it := p.get_stream name
        if it.raises then acc
        else
          let sd := it.yielded.map (fun s => OtherPoint.mk s.timestamp s.value)
          if sd = [] then acc else dictUpdate acc name sd)
    []

/-- The function `extract_telemetry` after a successful container parse: the four
recognized streams plus the pass-through dict. -/
def extract_telemetry (p : Parser) : TelemetryData :=
  { gps := extractRecognized p "GPS5" mkGps,
    accl := extractRecognized p "ACCL" mkXyz,
    gyro := extractRecognized p "GYRO" mkXyz,
    temp := extractRecognized p "TMPC" mkTemp,
    other_data := extract_other p }

/-! ## Telemetry export (`TelemetryData.to_json`, `telemetry.save_telemetry`) -/

/-- The serialized value stored under one key of the structured (JSON)
output object: one of the typed sequences. -/
inductive JStream where
  | gpsS (l : List GpsPoint)
  | xyzS (l : List XyzPoint)
  | tempS (l : List TempPoint)
  | otherS (l : List OtherPoint)
deriving DecidableEq, Repr

/-- The object `TelemetryData.to_json` serializes:
`{"gps": ..., "accl": ..., "gyro": ..., "temp": ..., **self.other_data}`.
The dict literal inserts the four well-known keys first, then merges
`other_data` entries in order, a duplicate key replacing the value while
keeping the original position. -/
def to_json (t : TelemetryData) : List (String × JStream) :=
  t.other_data.foldl (fun d kv => dictUpdate d kv.1 (JStream.otherS kv.2))
    [("gps", JStream.gpsS t.gps), ("accl", JStream.xyzS t.accl),
     ("gyro", JStream.xyzS t.gyro), ("temp", JStream.tempS t.temp)]

/-- Python `str.rfind` of the dot character on a character list: index of
the last dot. -/
def rfindDot : List Char → Option Nat
  | [] => none
  | c :: rest =>
    match rfindDot rest with
    | some i => some (i + 1)
    | none => if c = '.' then some 0 else none

/-- Python `PurePath.stem`: the final component without its suffix; the suffix
exists only when the last dot sits strictly inside the name
(`0 < i < len(name) - 1`). -/
def pathStem (name : String) : String :=
  let cs := name.toList
  match rfindDot cs with
  | some i => if 0 < i ∧ i < cs.length - 1 then String.mk (cs.take i) else name
  | none => name

/-- Content of one written output file: the structured JSON object or
tabular CSV text. -/
inductive FileContent where
  | jsonC (v : List (String × JStream))
  | textC (s : String)
deriving DecidableEq, Repr

/-- The CSV data rows written for the GPS sequence. -/
def gpsCsvRows (l : List GpsPoint) : String :=
  String.join (l.map (fun pt =>
    toString pt.timestamp ++ "," ++ toString pt.latitude ++ ","
      ++ toString pt.longitude ++ "," ++ toString pt.altitude ++ ","
      ++ toString pt.speed ++ "," ++ toString pt.speed3d ++ "\n"))

/-- The GPS CSV file: fixed header then rows. -/
def gpsCsv (l : List GpsPoint) : String :=
  "timestamp,latitude,longitude,altitude,speed,speed3d\n" ++ gpsCsvRows l

/-- The CSV data rows written for an accelerometer/gyroscope sequence. -/
def xyzCsvRows (l : List XyzPoint) : String :=
  String.join (l.map (fun pt =>
    toString pt.timestamp ++ "," ++ toString pt.x ++ ","
      ++ toString pt.y ++ "," ++ toString pt.z ++ "\n"))

/-- An accelerometer/gyroscope CSV file: fixed header then rows. -/
def xyzCsv (l : List XyzPoint) : String :=
  "timestamp,x,y,z\n" ++ xyzCsvRows l

/-- The CSV data rows written for the temperature sequence. -/
def tempCsvRows (l : List TempPoint) : String :=
  String.join (l.map (fun pt =>
    toString pt.timestamp ++ "," ++ toString pt.temperature ++ "\n"))

/-- The temperature CSV file: fixed header then rows. -/
def tempCsv (l : List TempPoint) : String :=
  "timestamp,temperature\n" ++ tempCsvRows l

/-- Result of `save_telemetry`: the returned `output_files` dict (logical
name to path) and the files actually written (path to content). -/
structure SaveResult where
  output_files : List (String × FsPath)
  written : List (FsPath × FileContent)
deriving DecidableEq, Repr

/-- The function `save_telemetry`: derive `base_name = base_path.stem` and
`output_dir = base_path.parent`; write the structured JSON file when "json"
is requested; when "csv" is requested, write one CSV per non-empty
well-known sequence (GPS, accelerometer, gyroscope, temperature, in that
order), skipping empty ones; record each written file in `output_files`. -/
def save_telemetry (t : TelemetryData) (base_path : FsPath)
    (formats : List String) : SaveResult :=
  let base_name := pathStem (base_path.getLastD "")
  let output_dir := base_path.dropLast
  let r0 : SaveResult := ⟨[], []⟩
  let r1 :=
    if "json" ∈ formats then
      let p := output_dir ++ [base_name ++ "_telemetry.json"]
      SaveResult.mk (r0.output_files ++ [("json", p)])
        (r0.written ++ [(p, FileContent.jsonC (to_json t))])
    else r0
  if "csv" ∈ formats then
    let ra :=
      if t.gps = [] then r1
      else
        let p := output_dir ++ [base_name ++ "_gps.csv"]
        SaveResult.mk (r1.output_files ++ [("gps_csv", p)])
          (r1.written ++ [(p, FileContent.textC (gpsCsv t.gps))])
    let rb :=
      if t.accl = [] then ra
      else
        let p := output_dir ++ [base_name ++ "_accl.csv"]
        SaveResult.mk (ra.output_files ++ [("accl_csv", p)])
          (ra.written ++ [(p, FileContent.textC (xyzCsv t.accl))])
    let rc :=
      if t.gyro = [] then rb
      else
        let p := output_dir ++ [base_name ++ "_gyro.csv"]
        SaveResult.mk (rb.output_files ++ [("gyro_csv", p)])
          (rb.written ++ [(p, FileContent.textC (xyzCsv t.gyro))])
    if t.temp = [] then rc
    else
      let p := output_dir ++ [base_name ++ "_temp.csv"]
      SaveResult.mk (rc.output_files ++ [("temp_csv", p)])
        (rc.written ++ [(p, FileContent.textC (tempCsv t.temp))])
  else r1

/-! ## Dict lemmas for the structured export -/

theorem dictLookup_dictUpdate {α : Type} (d : List (String × α)) (k q : String)
    (v : α) :
    dictLookup (dictUpdate d k v) q =
      if k = q then some v else dictLookup d q := by
  induction d with
  | nil => simp [dictUpdate, dictLookup]
  | cons hd tl ih =>
    obtain ⟨k', v'⟩ := hd
    by_cases h1 : k' = k
    · have e1 : dictUpdate ((k', v') :: tl) k v = (k', v) :: tl := by
        simp [dictUpdate, h1]
      rw [e1]
      subst h1
      simp only [dictLookup]
      split_ifs <;> simp_all
    · have e1 : dictUpdate ((k', v') :: tl) k v = (k', v') :: dictUpdate tl k v := by
        simp [dictUpdate, h1]
      rw [e1]
      simp only [dictLookup]
      by_cases h2 : k' = q
      · have hkq : ¬k = q := by
          intro hh
          exact h1 (by rw [h2, hh])
        simp [h2, hkq]
      · simp [h2, ih]

theorem keys_dictUpdate {α : Type} (d : List (String × α)) (k : String) (v : α) :
    (dictUpdate d k v).map Prod.fst =
      if k ∈ d.map Prod.fst then d.map Prod.fst else d.map Prod.fst ++ [k] := by
  induction d with
  | nil => simp [dictUpdate]
  | cons hd tl ih =>
    obtain ⟨k', v'⟩ := hd
    by_cases h1 : k' = k
    · have e1 : dictUpdate ((k', v') :: tl) k v = (k', v) :: tl := by
        simp [dictUpdate, h1]
      rw [e1]
      subst h1
      simp
    · have e1 : dictUpdate ((k', v') :: tl) k v = (k', v') :: dictUpdate tl k v := by
        simp [dictUpdate, h1]
      rw [e1]
      simp only [List.map_cons, List.mem_cons]
      rw [ih]
      have hne : ¬k = k' := fun hh => h1 hh.symm
      split_ifs with h2 h3 <;> simp_all

theorem nodup_keys_dictUpdate {α : Type} (d : List (String × α)) (k : String)
    (v : α) (hnd : (d.map Prod.fst).Nodup) :
    ((dictUpdate d k v).map Prod.fst).Nodup := by
  rw [keys_dictUpdate]
  split_ifs with h1
  · exact hnd
  · simp [List.nodup_append, hnd, h1]

theorem dictLookup_foldlUpdate_notmem {α γ : Type} (f : γ → α) :
    ∀ (items : List (String × γ)) (base : List (String × α)) (k : String),
      k ∉ items.map Prod.fst →
      dictLookup (items.foldl (fun d kv => dictUpdate d kv.1 (f kv.2)) base) k =
        dictLookup base k
  | [], _, _, _ => rfl
  | kv :: rest, base, k, hk => by
    rw [List.foldl_cons,
      dictLookup_foldlUpdate_notmem f rest (dictUpdate base kv.1 (f kv.2)) k
        (fun hh => hk (List.mem_cons_of_mem _ hh)),
      dictLookup_dictUpdate]
    have hne : ¬kv.1 = k := by
      intro hh
      exact hk (by simp [← hh])
    simp [hne]

theorem dictLookup_foldlUpdate_mem {α γ : Type} (f : γ → α) :
    ∀ (items : List (String × γ)) (base : List (String × α)) (k : String) (v : γ),
      (items.map Prod.fst).Nodup → (k, v) ∈ items →
      dictLookup (items.foldl (fun d kv => dictUpdate d kv.1 (f kv.2)) base) k =
        some (f v)
  | [], _, _, _, _, hv => absurd hv (List.not_mem_nil _)
  | kv :: rest, base, k, v, hnd, hv => by
    rw [List.foldl_cons]
    rcases List.mem_cons.mp hv with heq | hmem
    · have hk1 : kv.1 = k := by rw [← heq]
      have hv1 : kv.2 = v := by rw [← heq]
      have hknot : k ∉ rest.map Prod.fst := by
        rw [← hk1]
        exact (List.nodup_cons.mp (by simpa using hnd)).1
      rw [dictLookup_foldlUpdate_notmem f rest _ k hknot, dictLookup_dictUpdate]
      simp [hk1, hv1]
    · exact dictLookup_foldlUpdate_mem f rest _ k v
        ((List.nodup_cons.mp (by simpa using hnd)).2) hmem

theorem nodup_keys_foldlUpdate {α γ : Type} (f : γ → α) :
    ∀ (items : List (String × γ)) (base : List (String × α)),
      (base.map Prod.fst).Nodup →
      ((items.foldl (fun d kv => dictUpdate d kv.1 (f kv.2)) base).map Prod.fst).Nodup
  | [], _, hb => hb
  | kv :: rest, base, hb => by
    rw [List.foldl_cons]
    exact nodup_keys_foldlUpdate f rest _ (nodup_keys_dictUpdate base kv.1 (f kv.2) hb)

/-- C10: in the structured export object, a pass-through stream named
"gps", "accl", "gyro", or "temp" silently replaces the corresponding
well-known sequence — the merged dict binds that key to the pass-through
data — and the object's keys are duplicate-free, so it never contains both
sequences under distinct keys. -/
theorem passthrough_shadows_wellknown (t : TelemetryData) (k : String)
    (v : List OtherPoint)
    (hwk : k = "gps" ∨ k = "accl" ∨ k = "gyro" ∨ k = "temp")
    (hnd : (t.other_data.map Prod.fst).Nodup)
    (hv : (k, v) ∈ t.other_data) :
    dictLookup (to_json t) k = some (JStream.otherS v)
    ∧ ((to_json t).map Prod.fst).Nodup := by
  constructor
  · exact dictLookup_foldlUpdate_mem JStream.otherS t.other_data _ k v hnd hv
  · exact nodup_keys_foldlUpdate JStream.otherS t.other_data
      [("gps", JStream.gpsS t.gps), ("accl", JStream.xyzS t.accl),
       ("gyro", JStream.xyzS t.gyro), ("temp", JStream.tempS t.temp)]
      (by simp only [List.map_cons, List.map_nil]; decide)

/-- Witness for C10: a pass-through stream named "gps" replaces the
well-known GPS sequence in the structured object. -/
theorem passthrough_shadows_wellknown_witness :
    (("gps" : String), [OtherPoint.mk 5 [9]]) ∈
      (TelemetryData.mk [GpsPoint.mk 1 2 3 4 5 6] [] [] []
        [("gps", [OtherPoint.mk 5 [9]])]).other_data ∧
    dictLookup (to_json (TelemetryData.mk [GpsPoint.mk 1 2 3 4 5 6] [] [] []
        [("gps", [OtherPoint.mk 5 [9]])])) "gps" =
      some (JStream.otherS [OtherPoint.mk 5 [9]]) ∧
    ((to_json (TelemetryData.mk [GpsPoint.mk 1 2 3 4 5 6] [] [] []
        [("gps", [OtherPoint.mk 5 [9]])])).map Prod.fst).Nodup :=
  ⟨by decide,
   (passthrough_shadows_wellknown
      (TelemetryData.mk [GpsPoint.mk 1 2 3 4 5 6] [] [] []
        [("gps", [OtherPoint.mk 5 [9]])]) "gps" [OtherPoint.mk 5 [9]]
      (Or.inl rfl) (by decide) (by decide)).1,
   (passthrough_shadows_wellknown
      (TelemetryData.mk [GpsPoint.mk 1 2 3 4 5 6] [] [] []
        [("gps", [OtherPoint.mk 5 [9]])]) "gps" [OtherPoint.mk 5 [9]]
      (Or.inl rfl) (by decide) (by decide)).2⟩

/-! ## Lemmas for the telemetry extractor -/

theorem recLoop_eq_takeWhile {β : Type} (mk : Sample → Option β) :
    ∀ l : List Sample,
      recLoop mk l = (l.takeWhile (fun s => (mk s).isSome)).filterMap mk
  | [] => rfl
  | s :: rest => by
    cases hmk : mk s with
    | some r =>
      simp [recLoop, hmk, List.takeWhile_cons, recLoop_eq_takeWhile mk rest]
    | none => simp [recLoop, hmk, List.takeWhile_cons]

theorem extractRecognized_congr {β : Type} (p p' : Parser) (name : String)
    (mk : Sample → Option β) (hs : p'.streams = p.streams)
    (hg : p'.get_stream name = p.get_stream name) :
    extractRecognized p' name mk = extractRecognized p name mk := by
  rw [extractRecognized, extractRecognized, hs, hg]

theorem extract_other_congr (p p' : Parser) (hs : p'.streams = p.streams)
    (hg : ∀ n, ¬(n = "GPS5" ∨ n = "ACCL" ∨ n = "GYRO" ∨ n = "TMPC") →
      p'.get_stream n = p.get_stream n) :
    extract_other p' = extract_other p := by
  rw [extract_other, extract_other, hs]
  congr 1
  funext acc name
  by_cases h : name = "GPS5" ∨ name = "ACCL" ∨ name = "GYRO" ∨ name = "TMPC"
  · simp [h]
  · simp only [h, if_false]
    rw [hg name h]

/-- Helper for isolation statements: the parser with one named stream
replaced by another iterator, everything else unchanged. -/
def replaceStream (p : Parser) (name : String) (it : StreamIter) : Parser :=
  Parser.mk p.streams (fun n => if n = name then it else p.get_stream n)

/-- C7 (amended): for each of the four recognized streams, a failure while
extracting it is caught per-stream, but the output sequence keeps the
points appended before the failure — the successfully converted prefix of
the yielded samples — rather than being left empty (it is empty only when
the failure precedes the first sample); and replacing any one recognized
stream with an arbitrary iterator leaves every other recognized sequence
and the pass-through extraction unchanged, the function totally returning
a TelemetryData. -/
theorem stream_failure_partial_and_isolated (p : Parser) (it : StreamIter) :
    ("GPS5" ∈ p.streams →
      (extract_telemetry p).gps =
        ((p.get_stream "GPS5").yielded.takeWhile
          (fun s => (mkGps s).isSome)).filterMap mkGps)
    ∧ ("ACCL" ∈ p.streams →
      (extract_telemetry p).accl =
        ((p.get_stream "ACCL").yielded.takeWhile
          (fun s => (mkXyz s).isSome)).filterMap mkXyz)
    ∧ ("GYRO" ∈ p.streams →
      (extract_telemetry p).gyro =
        ((p.get_stream "GYRO").yielded.takeWhile
          (fun s => (mkXyz s).isSome)).filterMap mkXyz)
    ∧ ("TMPC" ∈ p.streams →
      (extract_telemetry p).temp =
        ((p.get_stream "TMPC").yielded.takeWhile
          (fun s => (mkTemp s).isSome)).filterMap mkTemp)
    ∧ ∀ name : String,
        name = "GPS5" ∨ name = "ACCL" ∨ name = "GYRO" ∨ name = "TMPC" →
        (¬name = "GPS5" →
          (extract_telemetry (replaceStream p name it)).gps =
            (extract_telemetry p).gps)
        ∧ (¬name = "ACCL" →
          (extract_telemetry (replaceStream p name it)).accl =
            (extract_telemetry p).accl)
        ∧ (¬name = "GYRO" →
          (extract_telemetry (replaceStream p name it)).gyro =
            (extract_telemetry p).gyro)
        ∧ (¬name = "TMPC" →
          (extract_telemetry (replaceStream p name it)).temp =
            (extract_telemetry p).temp)
        ∧ (extract_telemetry (replaceStream p name it)).other_data =
            (extract_telemetry p).other_data := by
  refine ⟨?_, ?_, ?_, ?_, ?_⟩
  · intro hmem
    simp [extract_telemetry, extractRecognized, hmem, recLoop_eq_takeWhile]
  · intro hmem
    simp [extract_telemetry, extractRecognized, hmem, recLoop_eq_takeWhile]
  · intro hmem
    simp [extract_telemetry, extractRecognized, hmem, recLoop_eq_takeWhile]
  · intro hmem
    simp [extract_telemetry, extractRecognized, hmem, recLoop_eq_takeWhile]
  · intro name hname
    refine ⟨?_, ?_, ?_, ?_, ?_⟩
    · intro hne
      refine extractRecognized_congr p _ "GPS5" mkGps rfl ?_
      show (if ("GPS5" : String) = name then it else p.get_stream "GPS5") =
        p.get_stream "GPS5"
      exact if_neg (fun hh => hne hh.symm)
    · intro hne
      refine extractRecognized_congr p _ "ACCL" mkXyz rfl ?_
      show (if ("ACCL" : String) = name then it else p.get_stream "ACCL") =
        p.get_stream "ACCL"
      exact if_neg (fun hh => hne hh.symm)
    · intro hne
      refine extractRecognized_congr p _ "GYRO" mkXyz rfl ?_
      show (if ("GYRO" : String) = name then it else p.get_stream "GYRO") =
        p.get_stream "GYRO"
      exact if_neg (fun hh => hne hh.symm)
    · intro hne
      refine extractRecognized_congr p _ "TMPC" mkTemp rfl ?_
      show (if ("TMPC" : String) = name then it else p.get_stream "TMPC") =
        p.get_stream "TMPC"
      exact if_neg (fun hh => hne hh.symm)
    · refine extract_other_congr p _ rfl ?_
      intro n hn
      show (if n = name then it else p.get_stream n) = p.get_stream n
      exact if_neg (fun hh => hn (by rw [hh]; exact hname))

/-- A parser offering one GPS5 stream that yields a good data point and
then a point whose value tuple is too short, so that indexing it raises
partway through the extraction loop. -/
def gpsFailParser : Parser :=
  { streams := ["GPS5"],
    get_stream := fun _ =>
      { yielded := [⟨1, [11, 22, 33, 44, 55]⟩, ⟨2, [9]⟩], raises := false } }

/-- C7 counterexample: GPS extraction fails partway (the second sample's
conversion raises), yet the resulting GPS sequence is the partial prefix
`[first point]`, not the empty sequence the claim requires. -/
theorem stream_failure_not_left_empty :
    mkGps ⟨2, [9]⟩ = none
    ∧ (extract_telemetry gpsFailParser).gps = [⟨1, 11, 22, 33, 44, 55⟩]
    ∧ (extract_telemetry gpsFailParser).gps ≠ ([] : List GpsPoint) :=
  ⟨by decide, by decide, by decide⟩

/-- A parser offering all four recognized streams: GPS5 fails partway (a
good point, then a short tuple), TMPC fails partway likewise, and the
ACCL/GYRO iterators raise after one point. -/
def fourStreamParser : Parser :=
  { streams := ["GPS5", "ACCL", "GYRO", "TMPC"],
    get_stream := fun n =>
      if n = "GPS5" then
        { yielded := [⟨1, [11, 22, 33, 44, 55]⟩, ⟨2, [9]⟩], raises := false }
      else if n = "TMPC" then
        { yielded := [⟨3, [7]⟩, ⟨4, []⟩], raises := false }
      else
        { yielded := [⟨5, [1, 2, 3]⟩], raises := true } }

/-- Witness for C7 at the concrete parser `fourStreamParser`: partial-prefix
results for the GPS and temperature streams, and invariance of the GPS
sequence and pass-through dict under replacing the ACCL stream. -/
theorem stream_failure_partial_and_isolated_witness :
    "GPS5" ∈ fourStreamParser.streams ∧
    "TMPC" ∈ fourStreamParser.streams ∧
    (extract_telemetry fourStreamParser).gps =
      ((fourStreamParser.get_stream "GPS5").yielded.takeWhile
        (fun s => (mkGps s).isSome)).filterMap mkGps ∧
    (extract_telemetry fourStreamParser).temp =
      ((fourStreamParser.get_stream "TMPC").yielded.takeWhile
        (fun s => (mkTemp s).isSome)).filterMap mkTemp ∧
    (extract_telemetry
        (replaceStream fourStreamParser "ACCL" (StreamIter.mk [] true))).gps =
      (extract_telemetry fourStreamParser).gps ∧
    (extract_telemetry
        (replaceStream fourStreamParser "ACCL" (StreamIter.mk [] true))).other_data =
      (extract_telemetry fourStreamParser).other_data :=
  ⟨by decide, by decide,
   (stream_failure_partial_and_isolated fourStreamParser
      (StreamIter.mk [] true)).1 (by decide),
   (stream_failure_partial_and_isolated fourStreamParser
      (StreamIter.mk [] true)).2.2.2.1 (by decide),
   ((stream_failure_partial_and_isolated fourStreamParser
      (StreamIter.mk [] true)).2.2.2.2 "ACCL" (Or.inr (Or.inl rfl))).1 (by decide),
   ((stream_failure_partial_and_isolated fourStreamParser
      (StreamIter.mk [] true)).2.2.2.2 "ACCL" (Or.inr (Or.inl rfl))).2.2.2.2⟩

/-- C9: when tabular ("csv") export is requested, exactly one tabular file
is written per non-empty well-known sequence — GPS, accelerometer,
gyroscope, temperature, each under its derived sibling name with its fixed
column header — no file is written for an empty sequence, pass-through
streams yield no tabular file (the only other possible artifact is the
structured JSON file when requested), and the returned mapping has exactly
one entry, in order, per file actually written. -/
theorem tabular_export_per_nonempty_sequence (t : TelemetryData)
    (base_path : FsPath) (formats : List String)
    (hcsv : "csv" ∈ formats) :
    (save_telemetry t base_path formats).written =
      (if "json" ∈ formats then
        [(base_path.dropLast ++ [pathStem (base_path.getLastD "") ++ "_telemetry.json"],
          FileContent.jsonC (to_json t))] else [])
      ++ (if t.gps = [] then [] else
        [(base_path.dropLast ++ [pathStem (base_path.getLastD "") ++ "_gps.csv"],
          FileContent.textC (gpsCsv t.gps))])
      ++ (if t.accl = [] then [] else
        [(base_path.dropLast ++ [pathStem (base_path.getLastD "") ++ "_accl.csv"],
          FileContent.textC (xyzCsv t.accl))])
      ++ (if t.gyro = [] then [] else
        [(base_path.dropLast ++ [pathStem (base_path.getLastD "") ++ "_gyro.csv"],
          FileContent.textC (xyzCsv t.gyro))])
      ++ (if t.temp = [] then [] else
        [(base_path.dropLast ++ [pathStem (base_path.getLastD "") ++ "_temp.csv"],
          FileContent.textC (tempCsv t.temp))])
    ∧ (save_telemetry t base_path formats).output_files.map Prod.snd =
        (save_telemetry t base_path formats).written.map Prod.fst
    ∧ (∃ r, gpsCsv t.gps = "timestamp,latitude,longitude,altitude,speed,speed3d\n" ++ r)
    ∧ (∃ r, xyzCsv t.accl = "timestamp,x,y,z\n" ++ r)
    ∧ (∃ r, xyzCsv t.gyro = "timestamp,x,y,z\n" ++ r)
    ∧ (∃ r, tempCsv t.temp = "timestamp,temperature\n" ++ r) := by
  refine ⟨?_, ?_, ⟨gpsCsvRows t.gps, rfl⟩, ⟨xyzCsvRows t.accl, rfl⟩,
    ⟨xyzCsvRows t.gyro, rfl⟩, ⟨tempCsvRows t.temp, rfl⟩⟩
  · simp only [save_telemetry, hcsv, if_true]
    split_ifs <;> simp
  · simp only [save_telemetry, hcsv, if_true]
    split_ifs <;> simp

/-- Witness for C9: a telemetry object with only GPS data, exported as
"json" and "csv", writes exactly the structured file and one GPS CSV, and
the returned mapping matches the written files one for one. -/
theorem tabular_export_witness :
    ("csv" : String) ∈ ["json", "csv"] ∧
    (save_telemetry (TelemetryData.mk [GpsPoint.mk 1 2 3 4 5 6] [] [] [] [])
        ["out", "video.MP4"] ["json", "csv"]).written =
      [(["out", "video_telemetry.json"],
        FileContent.jsonC (to_json
          (TelemetryData.mk [GpsPoint.mk 1 2 3 4 5 6] [] [] [] []))),
       (["out", "video_gps.csv"],
        FileContent.textC (gpsCsv [GpsPoint.mk 1 2 3 4 5 6]))] ∧
    (save_telemetry (TelemetryData.mk [GpsPoint.mk 1 2 3 4 5 6] [] [] [] [])
        ["out", "video.MP4"] ["json", "csv"]).output_files.map Prod.snd =
      (save_telemetry (TelemetryData.mk [GpsPoint.mk 1 2 3 4 5 6] [] [] [] [])
        ["out", "video.MP4"] ["json", "csv"]).written.map Prod.fst :=
  ⟨by decide,
   by
    rw [(tabular_export_per_nonempty_sequence
      (TelemetryData.mk [GpsPoint.mk 1 2 3 4 5 6] [] [] [] [])
      ["out", "video.MP4"] ["json", "csv"] (by decide)).1]
    decide,
   (tabular_export_per_nonempty_sequence
      (TelemetryData.mk [GpsPoint.mk 1 2 3 4 5 6] [] [] [] [])
      ["out", "video.MP4"] ["json", "csv"] (by decide)).2.1⟩

end GoProTransfer
